import Mathlib

/-!
Verification of the CacheORM repository (src/ORM.py, src/ORMUtils.py).

The development is a shallow embedding of the Python source:

* `Val` models the Python runtime values that flow through the cache layer
  (the types admitted by `CacheDefinition.PRIMITIVES`, plus `None` and the
  tuples produced by `DefinitionIndex.create`).  Lists, tuples and dicts
  are represented by the mutually inductive `VList` and `VPairs` (a dict
  is its insertion-ordered key-value sequence).  Native floats are left
  out of the value model: no claim settled here needs a float value, and
  their textual round-trip behaviour is not shallowly embeddable.
* Python truthiness, `==`, `in`, `dict.keys`, `list.append`, subscription
  and `enumerate` are modelled by the `py*` helpers below, including the
  `AttributeError` and `TypeError` failures the source can run into.
  Python `==` descends through nested containers; it is defined with an
  explicit fuel argument for termination, and every entry point supplies
  fuel exceeding the total size of both compared values, so the fuel
  never runs out.
* The redis database is an association list from keys to stored blobs.
  `ORMUtils.serialize_dict` is `str`, which succeeds on every value, so a
  stored blob is modelled by the value whose text it is; the byte level
  representation is abstracted away.  `ORMUtils.deserialize_dict` is
  `ast.literal_eval`, which inverts that text exactly when the blob
  contains no native `datetime` value; a nested `datetime` (one inside a
  list, tuple or dict, which the write-time normalization of `push` does
  not reach) is emitted by `str` as its `repr`, a call expression that
  `ast.literal_eval` rejects with `ValueError`.  `str(d)` is never the
  empty string, so the truthiness of fetched bytes coincides with key
  presence, which is how `redis.get` results are tested by the source.
* Exceptions abort the current call but do not roll back earlier
  `redis.set` writes, so the stateful operations return the final store
  next to an `Except` result.
-/

set_option maxRecDepth 8000

namespace CacheORMProof

/-- Date-time payload of a Python `datetime.datetime` value, to second
precision (the only precision the source ever stores). -/
structure PyDateTime where
  year : Nat
  month : Nat
  day : Nat
  hour : Nat
  minute : Nat
  second : Nat
deriving DecidableEq

mutual

/-- Python runtime values handled by the cache layer. -/
inductive Val where
  | none : Val
  | bool : Bool → Val
  | int : Int → Val
  | str : String → Val
  | list : VList → Val
  | tuple : VList → Val
  | dict : VPairs → Val
  | datetime : PyDateTime → Val

/-- The element sequence of a Python list or tuple. -/
inductive VList where
  | nil : VList
  | cons : Val → VList → VList

/-- The insertion-ordered key-value sequence of a Python dict. -/
inductive VPairs where
  | nil : VPairs
  | cons : Val → Val → VPairs → VPairs

end

mutual

/-- Number of value nodes; only used to provision fuel for `pyEq`. -/
def Val.sz : Val → Nat
  | Val.list xs => 1 + VList.sz xs
  | Val.tuple xs => 1 + VList.sz xs
  | Val.dict kvs => 1 + VPairs.sz kvs
  | _ => 1

def VList.sz : VList → Nat
  | VList.nil => 1
  | VList.cons x xs => 1 + Val.sz x + VList.sz xs

def VPairs.sz : VPairs → Nat
  | VPairs.nil => 1
  | VPairs.cons k v rest => 1 + Val.sz k + Val.sz v + VPairs.sz rest

end

mutual

/-- Whether a native `datetime` value occurs anywhere in a value.  The
textual encoding `str(d)` emits such a value as its `repr`, a call
expression that `ast.literal_eval` cannot parse back. -/
def Val.hasDatetime : Val → Bool
  | Val.datetime _ => true
  | Val.list xs => VList.hasDatetime xs
  | Val.tuple xs => VList.hasDatetime xs
  | Val.dict kvs => VPairs.hasDatetime kvs
  | _ => false

def VList.hasDatetime : VList → Bool
  | VList.nil => false
  | VList.cons x xs => Val.hasDatetime x || VList.hasDatetime xs

def VPairs.hasDatetime : VPairs → Bool
  | VPairs.nil => false
  | VPairs.cons k v rest =>
    Val.hasDatetime k || Val.hasDatetime v || VPairs.hasDatetime rest

end

def VList.toList : VList → List Val
  | VList.nil => []
  | VList.cons x xs => x :: VList.toList xs

def VList.ofList : List Val → VList
  | [] => VList.nil
  | x :: xs => VList.cons x (VList.ofList xs)

/-- `xs.append(v)` on the element sequence. -/
def VList.snoc : VList → Val → VList
  | VList.nil, v => VList.cons v VList.nil
  | VList.cons x xs, v => VList.cons x (VList.snoc xs v)

def VList.isNil : VList → Bool
  | VList.nil => true
  | VList.cons _ _ => false

def VList.length : VList → Nat
  | VList.nil => 0
  | VList.cons _ xs => 1 + VList.length xs

def VPairs.toList : VPairs → List (Val × Val)
  | VPairs.nil => []
  | VPairs.cons k v rest => (k, v) :: VPairs.toList rest

def VPairs.ofList : List (Val × Val) → VPairs
  | [] => VPairs.nil
  | (k, v) :: rest => VPairs.cons k v (VPairs.ofList rest)

/-- `list(d.keys())` of a dict body. -/
def VPairs.keysList : VPairs → List Val
  | VPairs.nil => []
  | VPairs.cons k _ rest => k :: VPairs.keysList rest

def VPairs.isNil : VPairs → Bool
  | VPairs.nil => true
  | VPairs.cons _ _ _ => false

def VPairs.length : VPairs → Nat
  | VPairs.nil => 0
  | VPairs.cons _ _ rest => 1 + VPairs.length rest

/-- The type tags of `CacheDefinition.PRIMITIVES`:
`[int, str, bool, list, float, dict, datetime]`. -/
inductive PrimTy where
  | int : PrimTy
  | str : PrimTy
  | bool : PrimTy
  | list : PrimTy
  | float : PrimTy
  | dict : PrimTy
  | datetime : PrimTy
deriving DecidableEq

/-- Python exceptions raised by the source: the bare `Exception(msg)`
raises written in ORM.py, and the interpreter-level errors its operations
can run into. -/
inductive PyError where
  | exception : String → PyError
  | attributeError : String → PyError
  | typeError : String → PyError
  | keyError : String → PyError
  | valueError : String → PyError
  | indexError : String → PyError
deriving DecidableEq

/-- The name Python reports for the type of a value (as it appears in
`AttributeError` and `TypeError` messages). -/
def pyTypeName : Val → String
  | Val.none => "NoneType"
  | Val.bool _ => "bool"
  | Val.int _ => "int"
  | Val.str _ => "str"
  | Val.list _ => "list"
  | Val.tuple _ => "tuple"
  | Val.dict _ => "dict"
  | Val.datetime _ => "datetime.datetime"

/-- Python truthiness of a value. -/
def pyTruthy : Val → Bool
  | Val.none => false
  | Val.bool b => b
  | Val.int n => n != 0
  | Val.str s => s != ""
  | Val.list xs => !xs.isNil
  | Val.tuple xs => !xs.isNil
  | Val.dict kvs => !kvs.isNil
  | Val.datetime _ => true

mutual

/-- Fuelled Python `==`.  Numbers compare numerically (`True == 1` holds,
since `bool` is a subclass of `int`), strings and `None` compare by
value, lists and tuples compare elementwise, dicts compare as unordered
key-value maps.  Cross-type comparisons are `False`.  The fuel only
serves termination; `pyEq` supplies more fuel than the recursion can
consume. -/
def pyEqF : Nat → Val → Val → Bool
  | 0, _, _ => false
  | n + 1, a, b =>
    match a, b with
    | Val.int x, Val.int y => x == y
    | Val.int x, Val.bool c => x == (if c then 1 else 0)
    | Val.bool c, Val.int y => (if c then (1 : Int) else 0) == y
    | Val.bool c, Val.bool d => c == d
    | Val.str s, Val.str t => s == t
    | Val.none, Val.none => true
    | Val.datetime s, Val.datetime t => decide (s = t)
    | Val.list xs, Val.list ys => pyEqListF n xs ys
    | Val.tuple xs, Val.tuple ys => pyEqListF n xs ys
    | Val.dict xs, Val.dict ys =>
      VPairs.length xs == VPairs.length ys && pySubDictF n xs ys
    | _, _ => false

def pyEqListF : Nat → VList → VList → Bool
  | 0, _, _ => false
  | _ + 1, VList.nil, VList.nil => true
  | n + 1, VList.cons x xs, VList.cons y ys => pyEqF n x y && pyEqListF n xs ys
  | _ + 1, _, _ => false

def pySubDictF : Nat → VPairs → VPairs → Bool
  | 0, _, _ => false
  | _ + 1, VPairs.nil, _ => true
  | n + 1, VPairs.cons k v rest, ys => pyLookupF n k v ys && pySubDictF n rest ys

def pyLookupF : Nat → Val → Val → VPairs → Bool
  | 0, _, _, _ => false
  | _ + 1, _, _, VPairs.nil => false
  | n + 1, k, v, VPairs.cons k2 v2 rest =>
    if pyEqF n k k2 then pyEqF n v v2 else pyLookupF n k v rest

end

/-- Python `==` on embedded values. -/
def pyEq (a b : Val) : Bool := pyEqF (Val.sz a + Val.sz b + 1) a b

/-- `d[k]` lookup in a dict body, keyed by Python equality. -/
def dictGet : VPairs → Val → Option Val
  | VPairs.nil, _ => Option.none
  | VPairs.cons k0 v0 rest, k =>
    if pyEq k0 k then Option.some v0 else dictGet rest k

/-- `d[k] = v` on a dict body: replaces the value of the first equal key
in place (keeping the original key object, as Python does), else appends
the new pair, preserving insertion order. -/
def dictSet : VPairs → Val → Val → VPairs
  | VPairs.nil, k, v => VPairs.cons k v VPairs.nil
  | VPairs.cons k0 v0 rest, k, v =>
    if pyEq k0 k then VPairs.cons k0 v rest
    else VPairs.cons k0 v0 (dictSet rest k v)

/-- `v.keys()`: succeeds only on a dict, otherwise the `AttributeError`
Python raises on the attribute access. -/
def pyKeys : Val → Except PyError (List Val)
  | Val.dict kvs => Except.ok kvs.keysList
  | v => Except.error (PyError.attributeError
      ("\x27" ++ pyTypeName v ++ "\x27 object has no attribute \x27keys\x27"))

/-- `v.append(x)`: succeeds only on a list, otherwise the `AttributeError`
Python raises on the attribute access. -/
def pyAppend : Val → Val → Except PyError Val
  | Val.list xs, x => Except.ok (Val.list (xs.snoc x))
  | v, _ => Except.error (PyError.attributeError
      ("\x27" ++ pyTypeName v ++ "\x27 object has no attribute \x27append\x27"))

/-- `d[k] = v` on a value known to be a dict (the source only assigns
after a successful `.keys()` access on the same value). -/
def valDictSet : Val → Val → Val → Val
  | Val.dict kvs, k, v => Val.dict (dictSet kvs k v)
  | w, _, _ => w

/-- `v[k]` subscription: dict lookup by equal key, list/tuple indexing by
integer (with negative indices counting from the end), otherwise a
`TypeError`. -/
def pyGetItem : Val → Val → Except PyError Val
  | Val.dict kvs, k =>
    match dictGet kvs k with
    | Option.some v => Except.ok v
    | Option.none => Except.error (PyError.keyError "key not present in dict")
  | Val.list xs, Val.int i =>
    let l := xs.toList
    let j : Int := if i < 0 then (l.length : Int) + i else i
    if h : 0 ≤ j ∧ j.toNat < l.length then Except.ok (l.get ⟨j.toNat, h.2⟩)
    else Except.error (PyError.indexError "list index out of range")
  | Val.tuple xs, Val.int i =>
    let l := xs.toList
    let j : Int := if i < 0 then (l.length : Int) + i else i
    if h : 0 ≤ j ∧ j.toNat < l.length then Except.ok (l.get ⟨j.toNat, h.2⟩)
    else Except.error (PyError.indexError "tuple index out of range")
  | v, _ => Except.error (PyError.typeError
      ("\x27" ++ pyTypeName v ++ "\x27 object is not subscriptable"))

/-- Whether the first character list starts the second. -/
def charsStart : List Char → List Char → Bool
  | [], _ => true
  | _ :: _, [] => false
  | c :: cs, d :: ds => c == d && charsStart cs ds

/-- Whether the first character list occurs contiguously in the second
(Python substring containment). -/
def charsSub (t : List Char) : List Char → Bool
  | [] => t.isEmpty
  | c :: rest => charsStart t (c :: rest) || charsSub t rest

/-- `a in b` membership: elementwise equality for lists and tuples, key
membership for dicts, substring test for strings, otherwise a
`TypeError`. -/
def pyIn (a : Val) (b : Val) : Except PyError Bool :=
  match b with
  | Val.list xs => Except.ok (xs.toList.any (fun x => pyEq x a))
  | Val.tuple xs => Except.ok (xs.toList.any (fun x => pyEq x a))
  | Val.dict kvs => Except.ok (kvs.keysList.any (fun k => pyEq k a))
  | Val.str s =>
    match a with
    | Val.str t => Except.ok (charsSub t.toList s.toList)
    | v => Except.error (PyError.typeError
        ("\x27in <string>\x27 requires string as left operand, not " ++ pyTypeName v))
  | v => Except.error (PyError.typeError
      ("argument of type \x27" ++ pyTypeName v ++ "\x27 is not iterable"))

/-- `xs.index(x)`: 0-based position of the first equal element, or the
`ValueError` Python raises when the element is absent. -/
def pyListIndex (xs : List Val) (x : Val) : Except PyError Int :=
  match xs.findIdx? (fun y => pyEq y x) with
  | Option.some i => Except.ok (Int.ofNat i)
  | Option.none => Except.error (PyError.valueError "value is not in list")

/-- `enumerate(v)` materialised as the list of `(index, element)` pairs
the loop unpacks; iterating a dict yields its keys, iterating a string
its one-character substrings; other values are not iterable. -/
def pyEnumerate : Val → Except PyError (List (Val × Val))
  | Val.list xs => Except.ok
      (xs.toList.enum.map (fun p => (Val.int (Int.ofNat p.1), p.2)))
  | Val.tuple xs => Except.ok
      (xs.toList.enum.map (fun p => (Val.int (Int.ofNat p.1), p.2)))
  | Val.dict kvs => Except.ok
      (kvs.keysList.enum.map (fun p => (Val.int (Int.ofNat p.1), p.2)))
  | Val.str s => Except.ok
      (s.toList.enum.map (fun p => (Val.int (Int.ofNat p.1), Val.str (String.mk [p.2]))))
  | v => Except.error (PyError.typeError
      ("\x27" ++ pyTypeName v ++ "\x27 object is not iterable"))

/-- Whether a value is hashable (usable as a set element or dict key). -/
def pyHashable : Val → Bool
  | Val.none => true
  | Val.bool _ => true
  | Val.int _ => true
  | Val.str _ => true
  | Val.datetime _ => true
  | Val.tuple _ => true
  | Val.list _ => false
  | Val.dict _ => false

/-- `list(set().union(xs))`: fails with `TypeError` on the first
unhashable element, otherwise de-duplicates.  CPython leaves the
resulting order unspecified; the model keeps first-occurrence order. -/
def setUnionList : List Val → List Val → Except PyError (List Val)
  | acc, [] => Except.ok acc
  | acc, x :: rest =>
    if pyHashable x = false then
      Except.error (PyError.typeError ("unhashable type: \x27" ++ pyTypeName x ++ "\x27"))
    else if acc.any (fun y => pyEq y x) then setUnionList acc rest
    else setUnionList (acc ++ [x]) rest

/-- The redis database: an association list from string keys to the
stored blobs (each blob modelled by the value it decodes to). -/
def Store := List (String × Val)

/-- `redis.get(k)` (None for an absent key). -/
def storeGet : Store → String → Option Val
  | [], _ => Option.none
  | (k0, v0) :: rest, k => if k0 = k then Option.some v0 else storeGet rest k

/-- `redis.set(k, v)`. -/
def storeSet : Store → String → Val → Store
  | [], k, v => [(k, v)]
  | (k0, v0) :: rest, k, v =>
    if k0 = k then (k0, v) :: rest else (k0, v0) :: storeSet rest k v

/-- `ORMUtils.serialize_dict`: `str(d)` (optionally zlib-compressed).
`str` succeeds on every value, so a blob is modelled by the value whose
text it is. -/
def serialize_dict (d : Val) : Val := d

/-- `ORMUtils.deserialize_dict`: `ast.literal_eval` of the decoded text
(after optional decompression).  It inverts `serialize_dict` exactly on
datetime-free values; a blob whose text contains the `repr` of a native
`datetime` is rejected with `ValueError` (CPython's "malformed node or
string" message, its per-run node address elided). -/
def deserialize_dict (b : Val) : Except PyError Val :=
  if Val.hasDatetime b then
    Except.error (PyError.valueError "malformed node or string")
  else Except.ok b

/-! ## The schema layer: `CacheDefinition` (ORM.py lines 226-265) -/

/-- A `CacheDefinition`: the cache key together with the field-to-type
contract built from the constructor keyword arguments.  The constructor
validates every type against `PRIMITIVES`, which the `PrimTy` codomain
enforces here, and copies `kwargs` into `self.repr` unchanged. -/
structure CacheDefinition where
  cache_key : String
  repr : List (String × PrimTy)

/-- `CacheDefinition._key`. -/
def CacheDefinition.key (d : CacheDefinition) : String := d.cache_key

/-- `CacheDefinition._dict`: `self.repr` with `None` as every value. -/
def CacheDefinition.dictNone (d : CacheDefinition) : VPairs :=
  VPairs.ofList (d.repr.map (fun p => (Val.str p.1, Val.none)))

/-- `def_repr[key]`: the declared type of a field. -/
def lookupTy (repr : List (String × PrimTy)) (k : String) : Option PrimTy :=
  (repr.find? (fun p => p.1 == k)).map Prod.snd

/-- Python `isinstance(v, ty)` for the `PRIMITIVES` type tags.  `bool` is
a subclass of `int`, so booleans are instances of `int`; nothing in the
embedded fragment is an instance of `float`. -/
def isInstance : Val → PrimTy → Bool
  | Val.bool _, PrimTy.bool => true
  | Val.bool _, PrimTy.int => true
  | Val.int _, PrimTy.int => true
  | Val.str _, PrimTy.str => true
  | Val.list _, PrimTy.list => true
  | Val.dict _, PrimTy.dict => true
  | Val.datetime _, PrimTy.datetime => true
  | _, _ => false

/-- Zero-padded two-digit field of `strftime`. -/
def pad2 (n : Nat) : String :=
  if n < 10 then "0" ++ toString n else toString n

/-- Zero-padded four-digit year field of `strftime`. -/
def pad4 (n : Nat) : String :=
  if n < 10 then "000" ++ toString n
  else if n < 100 then "00" ++ toString n
  else if n < 1000 then "0" ++ toString n
  else toString n

/-- `datetime.strftime(v, "%Y-%m-%d %H:%M:%S")`. -/
def PyDateTime.strftimeYmdHMS (t : PyDateTime) : String :=
  pad4 t.year ++ "-" ++ pad2 t.month ++ "-" ++ pad2 t.day ++ " " ++
    pad2 t.hour ++ ":" ++ pad2 t.minute ++ ":" ++ pad2 t.second

/-! ## The index layer: `DefinitionIndex` (ORM.py lines 268-399) -/

/-- `self.index_key = "_idx_{}".format(cache_key)`. -/
def DefinitionIndex.indexKey (cache_key : String) : String :=
  "_idx_" ++ cache_key

/-- `DefinitionIndex.has_index`: whether `redis.get(self.index_key)` is
truthy (stored blobs are never empty bytes, so this is key presence). -/
def DefinitionIndex.hasIndex (st : Store) (cache_key : String) : Bool :=
  (storeGet st (DefinitionIndex.indexKey cache_key)).isSome

/-- `DefinitionIndex.get`: the deserialized index blob (propagating the
decode failure), or `False` when the index key is absent. -/
def DefinitionIndex.get (st : Store) (cache_key : String) :
    Except PyError Val :=
  match storeGet st (DefinitionIndex.indexKey cache_key) with
  | Option.none => Except.ok (Val.bool false)
  | Option.some raw => deserialize_dict raw

/-- The inner loop of `DefinitionIndex.create`, for one unpacked
`(cache_item, cache_idx)` pair of `enumerate(cache)`:
`for key in list(cache_item.keys()): ...`.  Note that `enumerate` yields
`(position, element)`, so the source has bound `cache_item` to the
integer position; the first `cache_item.keys()` access is then an
`AttributeError` whenever the collection is non-empty. -/
def DefinitionIndex.createInner (cache_item cache_idx : Val) :
    VPairs → List Val → Except PyError VPairs
  | reverse_index, [] => Except.ok reverse_index
  | reverse_index, key :: rest =>
    match pyGetItem cache_item key with
    | Except.error e => Except.error e
    | Except.ok value =>
      if reverse_index.keysList.any (fun k => pyEq k value) then
        match pyGetItem (Val.dict reverse_index) value with
        | Except.error e => Except.error e
        | Except.ok cur =>
          match pyAppend cur (Val.tuple (VList.cons key (VList.cons cache_idx VList.nil))) with
          | Except.error e => Except.error e
          | Except.ok cur2 =>
            DefinitionIndex.createInner cache_item cache_idx
              (dictSet reverse_index value cur2) rest
      else
        DefinitionIndex.createInner cache_item cache_idx
          (dictSet reverse_index value
            (Val.list (VList.cons
              (Val.tuple (VList.cons key (VList.cons cache_idx VList.nil)))
              VList.nil))) rest

/-- The outer loop of `DefinitionIndex.create`:
`for cache_item, cache_idx in enumerate(cache): for key in
list(cache_item.keys()): ...`. -/
def DefinitionIndex.createOuter :
    VPairs → List (Val × Val) → Except PyError VPairs
  | reverse_index, [] => Except.ok reverse_index
  | reverse_index, (cache_item, cache_idx) :: rest =>
    match pyKeys cache_item with
    | Except.error e => Except.error e
    | Except.ok keys =>
      match DefinitionIndex.createInner cache_item cache_idx reverse_index keys with
      | Except.error e => Except.error e
      | Except.ok reverse_index2 => DefinitionIndex.createOuter reverse_index2 rest

/-- `DefinitionIndex.create` (ORM.py lines 287-327): returns `False` when
the index blob already exists, when the collection blob is absent, or
when it deserializes to a falsy value; otherwise runs the full scan and
stores the resulting reverse index. -/
def DefinitionIndex.create (st : Store) (cache_key : String) :
    Store × Except PyError Bool :=
  if (storeGet st (DefinitionIndex.indexKey cache_key)).isSome then
    (st, Except.ok false)
  else
    match storeGet st cache_key with
    | Option.none => (st, Except.ok false)
    | Option.some raw =>
      match deserialize_dict raw with
      | Except.error e => (st, Except.error e)
      | Except.ok cache =>
      if pyTruthy cache = false then (st, Except.ok false)
      else
        match pyEnumerate cache with
        | Except.error e => (st, Except.error e)
        | Except.ok pairs =>
          match DefinitionIndex.createOuter VPairs.nil pairs with
          | Except.error e => (st, Except.error e)
          | Except.ok reverse_index =>
            (storeSet st (DefinitionIndex.indexKey cache_key)
              (serialize_dict (Val.dict reverse_index)), Except.ok true)

/-- The per-key loop of `DefinitionIndex.update`: `for key in
item_key_list: if key in list(index_state.keys()):
index_state[key].append(item[key]) else: index_state[key] = item[key]`. -/
def DefinitionIndex.updateItemLoop (item : Val) :
    Val → List Val → Except PyError Val
  | index_state, [] => Except.ok index_state
  | index_state, key :: rest =>
    match pyKeys index_state with
    | Except.error e => Except.error e
    | Except.ok index_keys =>
      if index_keys.any (fun k => pyEq k key) then
        match pyGetItem index_state key with
        | Except.error e => Except.error e
        | Except.ok cur =>
          match pyGetItem item key with
          | Except.error e => Except.error e
          | Except.ok iv =>
            match pyAppend cur iv with
            | Except.error e => Except.error e
            | Except.ok cur2 =>
              DefinitionIndex.updateItemLoop item
                (valDictSet index_state key cur2) rest
      else
        match pyGetItem item key with
        | Except.error e => Except.error e
        | Except.ok iv =>
          DefinitionIndex.updateItemLoop item (valDictSet index_state key iv) rest

/-- The per-item loop of `DefinitionIndex.update`: checks every key of
the item against the schema fields, then folds the per-key loop. -/
def DefinitionIndex.updateItems (defn : CacheDefinition) :
    Val → List Val → Except PyError Val
  | index_state, [] => Except.ok index_state
  | index_state, item :: rest =>
    match pyKeys item with
    | Except.error e => Except.error e
    | Except.ok item_key_list =>
      let non_allowed_keys := item_key_list.filter
        (fun x => !(defn.repr.map Prod.fst).any (fun f => pyEq x (Val.str f)))
      if non_allowed_keys.length ≠ 0 then
        Except.error (PyError.exception "Unknown keys in cache_item, cannot cache")
      else
        match DefinitionIndex.updateItemLoop item index_state item_key_list with
        | Except.error e => Except.error e
        | Except.ok index_state2 => DefinitionIndex.updateItems defn index_state2 rest

/-- `DefinitionIndex.update` (ORM.py lines 344-388): raises when the
argument is not a list, returns `False` when no index blob exists, and
otherwise folds every record of the given collection into the index
structure and overwrites the index blob. -/
def DefinitionIndex.update (defn : CacheDefinition) (st : Store)
    (cache_key : String) (cache_items : Val) : Store × Except PyError Bool :=
  match cache_items with
  | Val.list items =>
    match storeGet st (DefinitionIndex.indexKey cache_key) with
    | Option.none => (st, Except.ok false)
    | Option.some raw =>
      match deserialize_dict raw with
      | Except.error e => (st, Except.error e)
      | Except.ok index_state0 =>
      match DefinitionIndex.updateItems defn index_state0 items.toList with
      | Except.error e => (st, Except.error e)
      | Except.ok index_state2 =>
        (storeSet st (DefinitionIndex.indexKey cache_key)
          (serialize_dict index_state2), Except.ok true)
  | _ => (st, Except.error (PyError.exception "cache_items must be list"))

/-! ## The facade: `CacheORM` (ORM.py lines 9-223) -/

/-- The `CacheORM` object: its registered cache definitions.  The
constructor rejects duplicate keys, so `def_keys.index` and
`definitions.find?` agree. -/
structure CacheORM where
  definitions : List CacheDefinition

/-- `self.def_keys`. -/
def CacheORM.def_keys (o : CacheORM) : List String :=
  o.definitions.map CacheDefinition.cache_key

/-- `self.definitions[self.def_keys.index(cache_key)]`. -/
def CacheORM.findDef (o : CacheORM) (cache_key : String) : Option CacheDefinition :=
  o.definitions.find? (fun d => d.cache_key == cache_key)

/-- `CacheORM._unpack` (ORM.py lines 199-223): `False` for an unknown key
or an absent blob, otherwise the deserialized blob — whose decode
failure (a blob retaining a nested native `datetime`) propagates to the
caller. -/
def CacheORM.unpack (o : CacheORM) (st : Store) (cache_key : String) :
    Except PyError Val :=
  if o.def_keys.contains cache_key then
    match storeGet st cache_key with
    | Option.none => Except.ok (Val.bool false)
    | Option.some raw => deserialize_dict raw
  else Except.ok (Val.bool false)

/-- The comprehension `{k: result_dict[k] for k in result_keys}` of
`CacheORM.get`. -/
def CacheORM.getComp (result_dict : Val) :
    VPairs → List Val → Except PyError VPairs
  | acc, [] => Except.ok acc
  | acc, k :: rest =>
    match pyGetItem result_dict k with
    | Except.error e => Except.error e
    | Except.ok v => CacheORM.getComp result_dict (dictSet acc k v) rest

/-- `CacheORM.get` (ORM.py lines 36-58): `False` for an unknown key or a
falsy unpack, otherwise the dict comprehension
`{k: result_dict[k] for k in result_keys}` — whose `result_dict.keys()`
access presumes the blob is a dict. -/
def CacheORM.get (o : CacheORM) (st : Store) (cache_key : String) :
    Except PyError Val :=
  if o.def_keys.contains cache_key then
    match o.unpack st cache_key with
    | Except.error e => Except.error e
    | Except.ok result_dict =>
    if pyTruthy result_dict = false then Except.ok (Val.bool false)
    else
      match pyKeys result_dict with
      | Except.error e => Except.error e
      | Except.ok result_keys =>
        match CacheORM.getComp result_dict VPairs.nil result_keys with
        | Except.error e => Except.error e
        | Except.ok results => Except.ok (Val.dict results)
  else Except.ok (Val.bool false)

/-- The write-time normalization of ORM.py lines 98-99: a `datetime`
value is replaced by its `strftime("%Y-%m-%d %H:%M:%S")` string; any
other value is stored as supplied. -/
def normVal : Val → Val
  | Val.datetime t => Val.str t.strftimeYmdHMS
  | w => w

/-- The validation loop of `CacheORM.push` (ORM.py lines 91-101): checks
each supplied key against the schema, checks `isinstance` against the
declared type, normalizes `datetime` values through `strftime`, and
writes the value into `app_dict`. -/
def CacheORM.validateLoop (repr : List (String × PrimTy))
    (cache_state_keys : List String) :
    VPairs → List (String × Val) → Except PyError VPairs
  | app_dict, [] => Except.ok app_dict
  | app_dict, (key, v) :: rest =>
    if cache_state_keys.contains key = false then
      Except.error (PyError.exception ("Unknown key `" ++ key ++ "` passed"))
    else
      match lookupTy repr key with
      | Option.none => Except.error (PyError.keyError "key not present in dict")
      | Option.some ty =>
        if isInstance v ty = false then
          Except.error (PyError.exception ("Type mismatch with key `" ++ key ++ "`"))
        else
          CacheORM.validateLoop repr cache_state_keys
            (dictSet app_dict (Val.str key) (normVal v)) rest

/-- The index stage of `CacheORM.push` (ORM.py lines 109-123), entered
after the collection blob has been rewritten: if no index exists it is
created by a full rebuild, otherwise `update` is called with the entire
current collection; a `False` from either is converted to a raise. -/
def CacheORM.pushIndexStage (defn : CacheDefinition) (st1 : Store)
    (cache_key : String) (cache_state2 : Val) : Store × Except PyError Bool :=
  if DefinitionIndex.hasIndex st1 cache_key = false then
    match (DefinitionIndex.create st1 cache_key).2 with
    | Except.error e => ((DefinitionIndex.create st1 cache_key).1, Except.error e)
    | Except.ok creation =>
      if creation then ((DefinitionIndex.create st1 cache_key).1, Except.ok true)
      else ((DefinitionIndex.create st1 cache_key).1, Except.error
        (PyError.exception "Error in creating index for definition"))
  else
    match (DefinitionIndex.update defn st1 cache_key cache_state2).2 with
    | Except.error e =>
      ((DefinitionIndex.update defn st1 cache_key cache_state2).1, Except.error e)
    | Except.ok has_updated =>
      if has_updated then
        ((DefinitionIndex.update defn st1 cache_key cache_state2).1, Except.ok true)
      else
        ((DefinitionIndex.update defn st1 cache_key cache_state2).1, Except.error
          (PyError.exception "Definition update failure"))

/-- `CacheORM.push` (ORM.py lines 60-123).  The record is validated and
appended (`cache_state_keys = list(defn._dict())` is the schema's field
list), the collection blob is rewritten, and then the index stage runs.
Failures after the `redis.set` of the collection leave that write in
place. -/
def CacheORM.push (o : CacheORM) (st : Store) (cache_key : String)
    (kvals : List (String × Val)) : Store × Except PyError Bool :=
  if o.def_keys.contains cache_key then
    match o.findDef cache_key with
    | Option.none => (st, Except.error (PyError.exception "Unknown cache_key"))
    | Option.some defn =>
      match o.unpack st cache_key with
      | Except.error e => (st, Except.error e)
      | Except.ok cache_state0 =>
      let cache_state := if pyTruthy cache_state0 then cache_state0
        else Val.list VList.nil
      match CacheORM.validateLoop defn.repr (defn.repr.map Prod.fst)
          defn.dictNone kvals with
      | Except.error e => (st, Except.error e)
      | Except.ok app_dict =>
        match pyAppend cache_state (Val.dict app_dict) with
        | Except.error e => (st, Except.error e)
        | Except.ok cache_state2 =>
          CacheORM.pushIndexStage defn
            (storeSet st cache_key (serialize_dict cache_state2))
            cache_key cache_state2
  else (st, Except.error (PyError.exception "Unknown cache_key"))

/-- `CacheORM.all` (ORM.py lines 125-143): raises on an unknown key,
returns `{}` when nothing is stored, else the deserialized blob. -/
def CacheORM.all (o : CacheORM) (st : Store) (cache_key : String) :
    Except PyError Val :=
  if o.def_keys.contains cache_key then
    match storeGet st cache_key with
    | Option.none => Except.ok (Val.dict VPairs.nil)
    | Option.some raw => deserialize_dict raw
  else Except.error (PyError.exception ("Unknown key `" ++ cache_key ++ "`"))

/-- The query loop of `CacheORM.search` (ORM.py lines 182-187). -/
def CacheORM.searchLoop (cache_state : Val) (cache_keys : List Val)
    (index_state : Val) (index_state_keys : List Val) :
    List Val → List (String × Val) → Except PyError (List Val)
  | results, [] => Except.ok results
  | results, (key, v) :: rest =>
    if index_state_keys.any (fun k => pyEq k (Val.str key)) then
      match pyGetItem index_state (Val.str key) with
      | Except.error e => Except.error e
      | Except.ok entry =>
        match pyIn v entry with
        | Except.error e => Except.error e
        | Except.ok b =>
          if b then
            match pyListIndex cache_keys (Val.str key) with
            | Except.error e => Except.error e
            | Except.ok idx =>
              match pyGetItem cache_state (Val.int idx) with
              | Except.error e => Except.error e
              | Except.ok item =>
                CacheORM.searchLoop cache_state cache_keys index_state
                  index_state_keys (results ++ [item]) rest
          else
            CacheORM.searchLoop cache_state cache_keys index_state
              index_state_keys results rest
    else
      CacheORM.searchLoop cache_state cache_keys index_state
        index_state_keys results rest

/-- `CacheORM.search` (ORM.py lines 145-191).  Note the statement order
of the source: `cache_state.keys()` is taken before the index is even
read, and `index_state.keys()` is taken before `index_state` is tested
for truthiness. -/
def CacheORM.search (o : CacheORM) (st : Store) (cache_key : String)
    (kwargs : List (String × Val)) : Except PyError Val :=
  if o.def_keys.contains cache_key then
    match o.all st cache_key with
    | Except.error e => Except.error e
    | Except.ok cache_state =>
      if pyTruthy cache_state = false then
        Except.error (PyError.exception
          ("Cache with key " ++ cache_key ++ " does not exist"))
      else
        match pyKeys cache_state with
        | Except.error e => Except.error e
        | Except.ok cache_keys =>
          match DefinitionIndex.get st cache_key with
          | Except.error e => Except.error e
          | Except.ok index_state =>
          match pyKeys index_state with
          | Except.error e => Except.error e
          | Except.ok index_state_keys =>
            if pyTruthy index_state = false then
              Except.error (PyError.exception "Index state is not loaded")
            else
              match CacheORM.searchLoop cache_state cache_keys index_state
                  index_state_keys [] kwargs with
              | Except.error e => Except.error e
              | Except.ok results =>
                match setUnionList [] results with
                | Except.error e => Except.error e
                | Except.ok union_results =>
                  Except.ok (Val.list (VList.ofList union_results))
  else
    Except.error (PyError.exception
      ("CacheDefinition with key " ++ cache_key ++ " has not been defined"))

/-- A sequence of `push` calls on one cache key (not a source method:
the harness for reasoning about repeated pushes), stopping at the first
call that does not return `True`; the boolean reports whether every
call succeeded. -/
def CacheORM.pushSeq (o : CacheORM) (st : Store) (cache_key : String) :
    List (List (String × Val)) → Store × Bool
  | [] => (st, true)
  | c :: cs =>
    let res := o.push st cache_key c
    match res.2 with
    | Except.ok true => CacheORM.pushSeq o res.1 cache_key cs
    | _ => (res.1, false)

/-- The record a successful `push` call appends: the schema's all-`None`
dict overwritten by the validated key-value pairs. -/
def CacheORM.extractRecord (defn : CacheDefinition)
    (kvals : List (String × Val)) : Val :=
  match CacheORM.validateLoop defn.repr (defn.repr.map Prod.fst)
      defn.dictNone kvals with
  | Except.ok app => Val.dict app
  | Except.error _ => Val.none

/-- Whether assignment of key `k` hits an existing entry of the dict. -/
def dictHasKey (d : VPairs) (k : Val) : Bool :=
  d.keysList.any (fun k0 => pyEq k0 k)

/-! ## Concrete fixtures used by the claim theorems -/

/-- The `users` schema of the specification example:
`CacheDefinition("users", email=str, age=int)`. -/
def usersDef : CacheDefinition :=
  { cache_key := "users", repr := [("email", PrimTy.str), ("age", PrimTy.int)] }

/-- `CacheORM(usersDef)`. -/
def ormUsers : CacheORM := { definitions := [usersDef] }

/-- The record pushed as `push(users, email="a@x.com", age=30)`. -/
def recA : Val := Val.dict (VPairs.ofList
  [(Val.str "email", Val.str "a@x.com"), (Val.str "age", Val.int 30)])

/-- The record pushed as `push(users, email="b@x.com", age=30)`. -/
def recB : Val := Val.dict (VPairs.ofList
  [(Val.str "email", Val.str "b@x.com"), (Val.str "age", Val.int 30)])

/-- A store holding both example records under `users`, together with a
reverse index of the documented shape (each value mapping to its
`(field, location)` pairs). -/
def stTwoRecords : Store :=
  [("users", Val.list (VList.ofList [recA, recB])),
   ("_idx_users", Val.dict (VPairs.ofList
     [(Val.str "a@x.com",
        Val.list (VList.ofList [Val.tuple (VList.ofList [Val.str "email", Val.int 0])])),
      (Val.int 30,
        Val.list (VList.ofList
          [Val.tuple (VList.ofList [Val.str "age", Val.int 0]),
           Val.tuple (VList.ofList [Val.str "age", Val.int 1])])),
      (Val.str "b@x.com",
        Val.list (VList.ofList [Val.tuple (VList.ofList [Val.str "email", Val.int 1])]))]))]

/-- A store seeded with a non-empty index blob and no collection: the
only kind of initial state from which `CacheORM.push` can return. -/
def stSeededIdx : Store :=
  [("_idx_users", Val.dict (VPairs.ofList [(Val.str "x", Val.int 1)]))]

/-- A single-field schema whose only field is list-typed: the one shape
of schema on which repeated `push` calls can keep succeeding (every
indexed value is a list, so the index update keeps appending). -/
def tagsDef : CacheDefinition :=
  { cache_key := "tags", repr := [("items", PrimTy.list)] }

/-- `CacheORM(tagsDef)`. -/
def ormTags : CacheORM := { definitions := [tagsDef] }

/-- A store seeded with a non-empty index blob for `tags` and no
collection. -/
def stSeededTags : Store :=
  [("_idx_tags", Val.dict (VPairs.ofList [(Val.str "x", Val.int 1)]))]

/-- Two push calls on `tags`, both of which succeed from
`stSeededTags`. -/
def tagsCalls : List (List (String × Val)) :=
  [[("items", Val.list (VList.ofList [Val.str "a"]))],
   [("items", Val.list (VList.ofList [Val.str "b"]))]]

/-- A push call supplying a list value that nests a native `datetime`:
the validation accepts it (the value is a list, and only a top-level
`datetime` is normalized), so the stored record retains the native
`datetime` and the collection blob becomes undecodable. -/
def poisonCall : List (String × Val) :=
  [("items", Val.list (VList.ofList [Val.datetime ⟨2021, 3, 4, 5, 6, 7⟩]))]

/-- The store after the successful poisoning push on `tags`: its
collection blob retains a nested native `datetime`, so every later
decode of it raises `ValueError`. -/
def stPoisonedTags : Store :=
  (ormTags.pushSeq stSeededTags "tags" [poisonCall]).1

/-- A schema with a timestamp-typed field. -/
def eventsDef : CacheDefinition :=
  { cache_key := "events", repr := [("name", PrimTy.str), ("at", PrimTy.datetime)] }

/-- `CacheORM(eventsDef)`. -/
def ormEvents : CacheORM := { definitions := [eventsDef] }

/-- A store seeded with a non-empty index blob for `events` and no
collection. -/
def stSeededEvents : Store :=
  [("_idx_events", Val.dict (VPairs.ofList [(Val.str "x", Val.int 1)]))]

/-! ## Basic lemmas about the store and value model -/

theorem storeGet_storeSet_self (st : Store) (k : String) (v : Val) :
    storeGet (storeSet st k v) k = Option.some v := by
  induction st with
  | nil => simp [storeGet, storeSet]
  | cons p rest ih =>
    by_cases h : p.1 = k
    · simp [storeGet, storeSet, h]
    · simpa [storeGet, storeSet, h] using ih

theorem storeGet_storeSet_ne (st : Store) (k k2 : String) (v : Val)
    (h : k2 ≠ k) : storeGet (storeSet st k v) k2 = storeGet st k2 := by
  induction st with
  | nil =>
    have h2 : ¬ k = k2 := fun hh => h hh.symm
    simp [storeGet, storeSet, h2]
  | cons p rest ih =>
    rcases p with ⟨pk, pv⟩
    by_cases hp : pk = k
    · subst hp
      have h2 : ¬ pk = k2 := fun hh => h hh.symm
      simp [storeGet, storeSet, h2]
    · by_cases hq : pk = k2
      · subst hq
        simp [storeGet, storeSet, hp]
      · simp [storeGet, storeSet, hp, hq, ih]

theorem indexKey_ne (s : String) : DefinitionIndex.indexKey s ≠ s := by
  intro h
  have hlen := congrArg String.length h
  rw [DefinitionIndex.indexKey, String.length_append] at hlen
  have h5 : "_idx_".length = 5 := by decide
  omega

theorem VList.toList_ofList (l : List Val) : (VList.ofList l).toList = l := by
  induction l with
  | nil => rfl
  | cons x xs ih => simp [VList.ofList, VList.toList, ih]

theorem VList.snoc_ofList (l : List Val) (v : Val) :
    (VList.ofList l).snoc v = VList.ofList (l ++ [v]) := by
  induction l with
  | nil => rfl
  | cons x xs ih => simp [VList.ofList, VList.snoc, ih]

@[simp] theorem pyEq_str_str (a b : String) :
    pyEq (Val.str a) (Val.str b) = (a == b) := rfl

theorem pyEq_str_of {v : Val} {s : String}
    (h : pyEq v (Val.str s) = true) : v = Val.str s := by
  cases v with
  | str t =>
    have : t = s := eq_of_beq h
    simp [this]
  | none => simp [pyEq, pyEqF, Val.sz] at h
  | bool b => simp [pyEq, pyEqF, Val.sz] at h
  | int n => simp [pyEq, pyEqF, Val.sz] at h
  | list xs => simp [pyEq, pyEqF, Val.sz] at h
  | tuple xs => simp [pyEq, pyEqF, Val.sz] at h
  | dict kvs => simp [pyEq, pyEqF, Val.sz] at h
  | datetime t => simp [pyEq, pyEqF, Val.sz] at h

theorem beq_false_of_ne {s t : String} (h : s ≠ t) : (s == t) = false := by
  cases hb : s == t with
  | true => exact absurd (eq_of_beq hb) h
  | false => rfl

theorem dictGet_dictSet_self : ∀ (d : VPairs) (k v : Val),
    pyEq k k = true → dictGet (dictSet d k v) k = Option.some v
  | VPairs.nil, k, v, hk => by simp [dictGet, dictSet, hk]
  | VPairs.cons k0 v0 rest, k, v, hk => by
    by_cases h : pyEq k0 k = true
    · simp [dictGet, dictSet, h]
    · simp [dictGet, dictSet, h, dictGet_dictSet_self rest k v hk]

theorem dictGet_dictSet_str_ne : ∀ (d : VPairs) (s t : String) (v : Val),
    s ≠ t →
    dictGet (dictSet d (Val.str s) v) (Val.str t) = dictGet d (Val.str t)
  | VPairs.nil, s, t, v, h => by
    simp [dictGet, dictSet, beq_false_of_ne h]
  | VPairs.cons k0 v0 rest, s, t, v, h => by
    by_cases h0 : pyEq k0 (Val.str s) = true
    · have hk0 : k0 = Val.str s := pyEq_str_of h0
      have hne : pyEq k0 (Val.str t) = false := by
        subst hk0
        simpa using beq_false_of_ne h
      simp [dictGet, dictSet, h0, hne]
    · by_cases h1 : pyEq k0 (Val.str t) = true <;>
        simp [dictGet, dictSet, h0, h1, dictGet_dictSet_str_ne rest s t v h]

theorem dictSet_keysList_of_has : ∀ (d : VPairs) (k v : Val),
    dictHasKey d k = true → (dictSet d k v).keysList = d.keysList
  | VPairs.nil, k, v, h => by simp [dictHasKey, VPairs.keysList] at h
  | VPairs.cons k0 v0 rest, k, v, h => by
    by_cases h0 : pyEq k0 k = true
    · simp [dictSet, h0, VPairs.keysList]
    · have hh : dictHasKey rest k = true := by
        simpa [dictHasKey, VPairs.keysList, h0] using h
      simp [dictSet, h0, VPairs.keysList, dictSet_keysList_of_has rest k v hh]

theorem keysList_ofList_none : ∀ (l : List (String × PrimTy)),
    (VPairs.ofList (l.map (fun p => (Val.str p.1, Val.none)))).keysList
      = l.map (fun p => Val.str p.1)
  | [] => rfl
  | p :: rest => by
    simp [VPairs.ofList, VPairs.keysList, keysList_ofList_none rest]

theorem dictNone_keysList (defn : CacheDefinition) :
    defn.dictNone.keysList = defn.repr.map (fun p => Val.str p.1) :=
  keysList_ofList_none defn.repr

theorem dictHasKey_of_mem_keysList (d : VPairs) (s : String)
    (h : Val.str s ∈ d.keysList) : dictHasKey d (Val.str s) = true := by
  unfold dictHasKey
  rw [List.any_eq_true]
  exact ⟨Val.str s, h, by simp⟩

theorem dictGet_ofList_none : ∀ (l : List (String × PrimTy)) (s : String),
    s ∈ l.map Prod.fst →
    dictGet (VPairs.ofList (l.map (fun p => (Val.str p.1, Val.none))))
      (Val.str s) = Option.some Val.none
  | [], s, h => by simp at h
  | p :: rest, s, h => by
    by_cases hp : p.1 = s
    · simp [VPairs.ofList, dictGet, hp]
    · have hmem : s ∈ rest.map Prod.fst := by
        rcases List.mem_map.mp h with ⟨q, hq, hqs⟩
        rcases List.mem_cons.mp hq with hh | hh
        · exact absurd (hh ▸ hqs) hp
        · exact List.mem_map.mpr ⟨q, hh, hqs⟩
      simpa [VPairs.ofList, dictGet, beq_false_of_ne hp]
        using dictGet_ofList_none rest s hmem

theorem dictGet_dictNone (defn : CacheDefinition) (s : String)
    (h : s ∈ defn.repr.map Prod.fst) :
    dictGet defn.dictNone (Val.str s) = Option.some Val.none :=
  dictGet_ofList_none defn.repr s h

/-! ## Lemmas about the validation loop of `push` -/

theorem dictHasKey_congr {d d2 : VPairs} (k : Val)
    (h : d.keysList = d2.keysList) : dictHasKey d k = dictHasKey d2 k := by
  unfold dictHasKey
  rw [h]

theorem lookupTy_some_of_mem : ∀ (repr : List (String × PrimTy)) (k : String),
    k ∈ repr.map Prod.fst → ∃ ty, lookupTy repr k = Option.some ty
  | [], k, h => by simp at h
  | p :: rest, k, h => by
    by_cases hp : p.1 = k
    · exact ⟨p.2, by simp [lookupTy, List.find?, hp]⟩
    · have hmem : k ∈ rest.map Prod.fst := by
        rcases List.mem_map.mp h with ⟨q, hq, hqs⟩
        rcases List.mem_cons.mp hq with hh | hh
        · exact absurd (hh ▸ hqs) hp
        · exact List.mem_map.mpr ⟨q, hh, hqs⟩
      rcases lookupTy_some_of_mem rest k hmem with ⟨ty, hty⟩
      exact ⟨ty, by simpa [lookupTy, List.find?, beq_false_of_ne hp] using hty⟩

theorem validateLoop_nil (repr : List (String × PrimTy))
    (keys : List String) (app : VPairs) :
    CacheORM.validateLoop repr keys app [] = Except.ok app := rfl

theorem validateLoop_cons (repr : List (String × PrimTy))
    (keys : List String) (app : VPairs) (key : String) (v : Val)
    (rest : List (String × Val)) :
    CacheORM.validateLoop repr keys app ((key, v) :: rest) =
      if keys.contains key = false then
        Except.error (PyError.exception ("Unknown key `" ++ key ++ "` passed"))
      else
        match lookupTy repr key with
        | Option.none => Except.error (PyError.keyError "key not present in dict")
        | Option.some ty =>
          if isInstance v ty = false then
            Except.error (PyError.exception ("Type mismatch with key `" ++ key ++ "`"))
          else
            CacheORM.validateLoop repr keys
              (dictSet app (Val.str key) (normVal v)) rest := rfl

theorem validateLoop_keysList (repr : List (String × PrimTy))
    (keys : List String) :
    ∀ (kvals : List (String × Val)) (app out : VPairs),
    (∀ s, s ∈ keys → dictHasKey app (Val.str s) = true) →
    CacheORM.validateLoop repr keys app kvals = Except.ok out →
    out.keysList = app.keysList
  | [], app, out, _, h => by
    rw [validateLoop_nil] at h
    injection h with h
    rw [← h]
  | (key, v) :: rest, app, out, hinv, h => by
    rw [validateLoop_cons] at h
    by_cases hc : keys.contains key = false
    · rw [if_pos hc] at h
      exact absurd h (by simp)
    · rw [if_neg hc] at h
      have hkey : key ∈ keys :=
        List.mem_of_elem_eq_true (Bool.of_not_eq_false hc)
      rcases hty : lookupTy repr key with _ | ty
      · simp only [hty] at h
        exact Except.noConfusion h
      · simp only [hty] at h
        by_cases hi : isInstance v ty = false
        · rw [if_pos hi] at h
          exact absurd h (by simp)
        · rw [if_neg hi] at h
          have hhk : dictHasKey app (Val.str key) = true := hinv key hkey
          have hkeys : (dictSet app (Val.str key) (normVal v)).keysList
              = app.keysList :=
            dictSet_keysList_of_has app (Val.str key) (normVal v) hhk
          have hinv2 : ∀ s, s ∈ keys →
              dictHasKey (dictSet app (Val.str key) (normVal v)) (Val.str s) = true :=
            fun s hs => by
              rw [dictHasKey_congr (Val.str s) hkeys]
              exact hinv s hs
          rw [validateLoop_keysList repr keys rest _ out hinv2 h]
          exact hkeys

theorem validateLoop_get_unset (repr : List (String × PrimTy))
    (keys : List String) :
    ∀ (kvals : List (String × Val)) (app out : VPairs) (f : String),
    f ∉ kvals.map Prod.fst →
    CacheORM.validateLoop repr keys app kvals = Except.ok out →
    dictGet out (Val.str f) = dictGet app (Val.str f)
  | [], app, out, f, _, h => by
    rw [validateLoop_nil] at h
    injection h with h
    rw [← h]
  | (key, v) :: rest, app, out, f, hout, h => by
    rw [validateLoop_cons] at h
    by_cases hc : keys.contains key = false
    · rw [if_pos hc] at h
      exact absurd h (by simp)
    · rw [if_neg hc] at h
      rcases hty : lookupTy repr key with _ | ty
      · simp only [hty] at h
        exact Except.noConfusion h
      · simp only [hty] at h
        by_cases hi : isInstance v ty = false
        · rw [if_pos hi] at h
          exact absurd h (by simp)
        · rw [if_neg hi] at h
          have hne : key ≠ f := fun hh => hout (by simp [← hh])
          have hrest : f ∉ rest.map Prod.fst := fun hh => hout (by simp [hh])
          rw [validateLoop_get_unset repr keys rest _ out f hrest h]
          exact dictGet_dictSet_str_ne app key f (normVal v) hne

theorem validateLoop_datetime (repr : List (String × PrimTy))
    (keys : List String) :
    ∀ (kvals : List (String × Val)) (app out : VPairs) (f : String)
    (t : PyDateTime),
    (kvals.map Prod.fst).Nodup →
    (f, Val.datetime t) ∈ kvals →
    CacheORM.validateLoop repr keys app kvals = Except.ok out →
    dictGet out (Val.str f) = Option.some (Val.str t.strftimeYmdHMS)
  | [], _, _, _, _, _, hmem, _ => by simp at hmem
  | (key, v) :: rest, app, out, f, t, hnodup, hmem, h => by
    rw [validateLoop_cons] at h
    by_cases hc : keys.contains key = false
    · rw [if_pos hc] at h
      exact absurd h (by simp)
    · rw [if_neg hc] at h
      rcases hty : lookupTy repr key with _ | ty
      · simp only [hty] at h
        exact Except.noConfusion h
      · simp only [hty] at h
        by_cases hi : isInstance v ty = false
        · rw [if_pos hi] at h
          exact absurd h (by simp)
        · rw [if_neg hi] at h
          rw [List.map_cons] at hnodup
          have hnd := List.nodup_cons.mp hnodup
          rcases List.mem_cons.mp hmem with hh | hh
          · have hkf : f = key := congrArg Prod.fst hh
            have hv : Val.datetime t = v := congrArg Prod.snd hh
            subst hkf
            subst hv
            have hrest : f ∉ rest.map Prod.fst := hnd.1
            rw [validateLoop_get_unset repr keys rest _ out f hrest h]
            show dictGet (dictSet app (Val.str f) (Val.str t.strftimeYmdHMS))
              (Val.str f) = _
            exact dictGet_dictSet_self app (Val.str f)
              (Val.str t.strftimeYmdHMS) (by simp)
          · have hne : key ≠ f := by
              intro hkf
              exact hnd.1 (hkf ▸ List.mem_map.mpr ⟨(f, Val.datetime t), hh, rfl⟩)
            exact validateLoop_datetime repr keys rest _ out f t hnd.2 hh h

theorem validateLoop_mismatch (repr : List (String × PrimTy)) :
    ∀ (kvals : List (String × Val)) (app : VPairs),
    (∀ p, p ∈ kvals → p.1 ∈ repr.map Prod.fst) →
    (∃ p, p ∈ kvals ∧ ∃ ty, lookupTy repr p.1 = Option.some ty ∧
      isInstance p.2 ty = false) →
    ∃ g, CacheORM.validateLoop repr (repr.map Prod.fst) app kvals
      = Except.error (PyError.exception ("Type mismatch with key `" ++ g ++ "`"))
  | [], _, _, hbad => by
    rcases hbad with ⟨p, hp, _⟩
    simp at hp
  | (key, v) :: rest, app, hdecl, hbad => by
    have hmem : key ∈ repr.map Prod.fst := hdecl (key, v) (by simp)
    have hctrue : (repr.map Prod.fst).contains key = true :=
      List.elem_eq_true_of_mem hmem
    have hc : ¬ (repr.map Prod.fst).contains key = false := by
      rw [hctrue]
      decide
    rcases lookupTy_some_of_mem repr key hmem with ⟨ty0, hty0⟩
    by_cases hi : isInstance v ty0 = false
    · refine ⟨key, ?_⟩
      rw [validateLoop_cons, if_neg hc]
      simp only [hty0]
      rw [if_pos hi]
    · have hbad2 : ∃ p, p ∈ rest ∧ ∃ ty, lookupTy repr p.1 = Option.some ty ∧
          isInstance p.2 ty = false := by
        rcases hbad with ⟨p, hp, ty, hty, hinst⟩
        rcases List.mem_cons.mp hp with hh | hh
        · subst hh
          rw [hty0] at hty
          injection hty with hh2
          subst hh2
          exact absurd hinst hi
        · exact ⟨p, hh, ty, hty, hinst⟩
      rcases validateLoop_mismatch repr rest
        (dictSet app (Val.str key) (normVal v))
        (fun p hp => hdecl p (by simp [hp])) hbad2 with ⟨g, hg⟩
      refine ⟨g, ?_⟩
      rw [validateLoop_cons, if_neg hc]
      simp only [hty0]
      rw [if_neg hi]
      exact hg

/-! ## Structure lemmas about `push` -/

theorem contains_of_findDef {o : CacheORM} {ck : String}
    {defn : CacheDefinition} (h : o.findDef ck = Option.some defn) :
    o.def_keys.contains ck = true := by
  have h2 : o.definitions.find? (fun d => d.cache_key == ck)
      = Option.some defn := h
  have hmem := List.mem_of_find?_eq_some h2
  have hkey : defn.cache_key = ck := by
    have hbeq := List.find?_some h2
    simpa using hbeq
  exact List.elem_eq_true_of_mem
    (List.mem_map.mpr ⟨defn, hmem, hkey⟩)

theorem pyAppend_ok {v x w : Val} (h : pyAppend v x = Except.ok w) :
    ∃ xs, v = Val.list xs ∧ w = Val.list (xs.snoc x) := by
  cases v with
  | list xs =>
    refine ⟨xs, rfl, ?_⟩
    simp [pyAppend] at h
    exact h.symm
  | none => exact absurd h (by simp [pyAppend])
  | bool b => exact absurd h (by simp [pyAppend])
  | int n => exact absurd h (by simp [pyAppend])
  | str s => exact absurd h (by simp [pyAppend])
  | tuple xs => exact absurd h (by simp [pyAppend])
  | dict kvs => exact absurd h (by simp [pyAppend])
  | datetime t => exact absurd h (by simp [pyAppend])

theorem create_preserves (st : Store) (ck k : String)
    (h : k ≠ DefinitionIndex.indexKey ck) :
    storeGet (DefinitionIndex.create st ck).1 k = storeGet st k := by
  unfold DefinitionIndex.create
  split
  · rfl
  · split
    · rfl
    · split
      · rfl
      · split
        · rfl
        · split
          · rfl
          · split
            · rfl
            · exact storeGet_storeSet_ne st (DefinitionIndex.indexKey ck) k _ h

theorem update_preserves (defn : CacheDefinition) (st : Store)
    (ck : String) (items : Val) (k : String)
    (h : k ≠ DefinitionIndex.indexKey ck) :
    storeGet (DefinitionIndex.update defn st ck items).1 k = storeGet st k := by
  unfold DefinitionIndex.update
  split
  · split
    · rfl
    · split
      · rfl
      · split
        · rfl
        · exact storeGet_storeSet_ne st (DefinitionIndex.indexKey ck) k _ h
  · rfl

theorem pushIndexStage_preserves (defn : CacheDefinition) (st1 : Store)
    (ck : String) (cs2 : Val) (k : String)
    (h : k ≠ DefinitionIndex.indexKey ck) :
    storeGet (CacheORM.pushIndexStage defn st1 ck cs2).1 k = storeGet st1 k := by
  unfold CacheORM.pushIndexStage
  split
  · split
    · exact create_preserves st1 ck k h
    · split
      · exact create_preserves st1 ck k h
      · exact create_preserves st1 ck k h
  · split
    · exact update_preserves defn st1 ck cs2 k h
    · split
      · exact update_preserves defn st1 ck cs2 k h
      · exact update_preserves defn st1 ck cs2 k h

theorem push_ok_split (o : CacheORM) (st : Store) (ck : String)
    (kvals : List (String × Val))
    (h : (o.push st ck kvals).2 = Except.ok true) :
    ∃ (defn : CacheDefinition) (app : VPairs) (cur : VList),
      o.findDef ck = Option.some defn ∧
      CacheORM.validateLoop defn.repr (defn.repr.map Prod.fst)
        defn.dictNone kvals = Except.ok app ∧
      storeGet (o.push st ck kvals).1 ck
        = Option.some (Val.list (cur.snoc (Val.dict app))) := by
  by_cases hcont : o.def_keys.contains ck = true
  · rcases hfind : o.findDef ck with _ | defn
    · rw [CacheORM.push, if_pos hcont, hfind] at h
      exact absurd h (by simp)
    · rcases hunp : o.unpack st ck with e | cs0
      · rw [CacheORM.push, if_pos hcont, hfind] at h
        simp only [hunp] at h
        exact Except.noConfusion h
      · rcases hval : CacheORM.validateLoop defn.repr (defn.repr.map Prod.fst)
            defn.dictNone kvals with e | app
        · rw [CacheORM.push, if_pos hcont, hfind] at h
          simp only [hunp, hval] at h
          exact Except.noConfusion h
        · rcases hap : pyAppend
              (if pyTruthy cs0 = true then cs0 else Val.list VList.nil)
              (Val.dict app) with e | cs2
          · rw [CacheORM.push, if_pos hcont, hfind] at h
            simp only [hunp, hval, hap] at h
            exact Except.noConfusion h
          · rcases pyAppend_ok hap with ⟨xs, hxs, hcs2⟩
            refine ⟨defn, app, xs, rfl, hval, ?_⟩
            rw [CacheORM.push, if_pos hcont, hfind]
            simp only [hunp, hval, hap]
            rw [pushIndexStage_preserves defn _ ck cs2 ck
              (fun hh => indexKey_ne ck hh.symm)]
            rw [storeGet_storeSet_self]
            rw [hcs2]
            rfl
  · rw [CacheORM.push, if_neg hcont] at h
    exact absurd h (by simp)

theorem push_ok_collection (o : CacheORM) (st : Store) (ck : String)
    (kvals : List (String × Val)) (defn : CacheDefinition) (cur : List Val)
    (hfind : o.findDef ck = Option.some defn)
    (hcur : storeGet st ck = Option.none ∧ cur = [] ∨
            storeGet st ck = Option.some (Val.list (VList.ofList cur)))
    (h : (o.push st ck kvals).2 = Except.ok true) :
    storeGet (o.push st ck kvals).1 ck
      = Option.some (Val.list (VList.ofList
          (cur ++ [CacheORM.extractRecord defn kvals]))) := by
  have hcont := contains_of_findDef hfind
  have hmain : ∃ cs0, o.unpack st ck = Except.ok cs0 ∧
      (if pyTruthy cs0 = true then cs0 else Val.list VList.nil)
        = Val.list (VList.ofList cur) := by
    rcases hcur with ⟨hst, hc⟩ | hst
    · subst hc
      refine ⟨Val.bool false, ?_, rfl⟩
      rw [CacheORM.unpack, if_pos hcont, hst]
    · by_cases hdt : Val.hasDatetime (Val.list (VList.ofList cur)) = true
      · exfalso
        have hunp : o.unpack st ck
            = Except.error (PyError.valueError "malformed node or string") := by
          rw [CacheORM.unpack, if_pos hcont, hst]
          simp [deserialize_dict, hdt]
        rw [CacheORM.push, if_pos hcont, hfind] at h
        simp only [hunp] at h
        exact Except.noConfusion h
      · refine ⟨Val.list (VList.ofList cur), ?_, ?_⟩
        · rw [CacheORM.unpack, if_pos hcont, hst]
          simp [deserialize_dict, hdt]
        · cases cur with
          | nil => rfl
          | cons x rest => rfl
  rcases hmain with ⟨cs0, hunp, hstate⟩
  rcases hval : CacheORM.validateLoop defn.repr (defn.repr.map Prod.fst)
      defn.dictNone kvals with e | app
  · rw [CacheORM.push, if_pos hcont, hfind] at h
    simp only [hunp, hval] at h
    exact Except.noConfusion h
  · have hex : CacheORM.extractRecord defn kvals = Val.dict app := by
      rw [CacheORM.extractRecord, hval]
    have hap : pyAppend
        (if pyTruthy cs0 = true then cs0 else Val.list VList.nil) (Val.dict app)
        = Except.ok (Val.list (VList.ofList (cur ++ [Val.dict app]))) := by
      rw [hstate]
      show Except.ok (Val.list ((VList.ofList cur).snoc (Val.dict app))) = _
      rw [VList.snoc_ofList]
    rw [CacheORM.push, if_pos hcont, hfind]
    simp only [hunp, hval, hap]
    rw [pushIndexStage_preserves defn _ ck _ ck
      (fun hh => indexKey_ne ck hh.symm)]
    rw [storeGet_storeSet_self, hex]
    rfl

/-! ## Closed evaluations of the code at the failing inputs -/

/-- C1: the search-correctness example of the specification fails on the
code.  The first `push` of the example raises `AttributeError` inside
`DefinitionIndex.create`, because the `enumerate` unpacking binds the
integer position to `cache_item` and then calls `.keys()` on it; and
even on a store already holding both example records together with a
value-keyed index of the documented shape, `search(users, age=30)` and
`search(users, email="a@x.com")` raise `AttributeError` (the list-valued
collection has no `.keys()`) instead of returning the matching
records. -/
theorem search_spec_example_crashes :
    (ormUsers.push [] "users"
        [("email", Val.str "a@x.com"), ("age", Val.int 30)]).2
      = Except.error (PyError.attributeError
          "\x27int\x27 object has no attribute \x27keys\x27") ∧
    ormUsers.search stTwoRecords "users" [("age", Val.int 30)]
      = Except.error (PyError.attributeError
          "\x27list\x27 object has no attribute \x27keys\x27") ∧
    ormUsers.search stTwoRecords "users" [("email", Val.str "a@x.com")]
      = Except.error (PyError.attributeError
          "\x27list\x27 object has no attribute \x27keys\x27") :=
  ⟨rfl, rfl, rfl⟩

/-- C2: before any push, `search` on a registered name does fail with
the not-initialized exception, but the second half of the claim fails on
the code: the first `push` on a fresh store raises `AttributeError`
inside the full index rebuild instead of succeeding, and even when a
push does succeed (possible only when a non-empty index blob already
sits in the store), the `search` after it raises `AttributeError`
rather than succeeding. -/
theorem index_lazy_creation_broken :
    ormUsers.search [] "users" [("age", Val.int 30)]
      = Except.error (PyError.exception "Cache with key users does not exist") ∧
    (ormUsers.push [] "users"
        [("email", Val.str "a@x.com"), ("age", Val.int 30)]).2
      = Except.error (PyError.attributeError
          "\x27int\x27 object has no attribute \x27keys\x27") ∧
    (ormUsers.push stSeededIdx "users"
        [("email", Val.str "a@x.com"), ("age", Val.int 30)]).2 = Except.ok true ∧
    ormUsers.search
        (ormUsers.push stSeededIdx "users"
          [("email", Val.str "a@x.com"), ("age", Val.int 30)]).1
        "users" [("age", Val.int 30)]
      = Except.error (PyError.attributeError
          "\x27list\x27 object has no attribute \x27keys\x27") :=
  ⟨rfl, rfl, rfl, rfl⟩

/-- C3: `DefinitionIndex.create` does return `False` without raising
when an index blob already exists, when the collection blob is absent,
and when the collection is empty; but on any non-empty collection the
full scan raises `AttributeError` (the `enumerate` unpacking is
reversed, so the 0-th integer position receives the `.keys()` call)
instead of building the value-to-(field, location) map and reporting
success. -/
theorem create_full_scan_crashes :
    DefinitionIndex.create stTwoRecords "users"
      = (stTwoRecords, Except.ok false) ∧
    DefinitionIndex.create [] "users" = ([], Except.ok false) ∧
    DefinitionIndex.create [("users", Val.list VList.nil)] "users"
      = ([("users", Val.list VList.nil)], Except.ok false) ∧
    DefinitionIndex.create [("users", Val.list (VList.ofList [recA]))] "users"
      = ([("users", Val.list (VList.ofList [recA]))],
         Except.error (PyError.attributeError
           "\x27int\x27 object has no attribute \x27keys\x27")) :=
  ⟨rfl, rfl, rfl, rfl⟩

/-- C4: `DefinitionIndex.update` does return `False` when no index blob
exists and does raise on an undeclared field; but instead of appending a
`(field, location)` entry under the key `value`, it writes the raw value
under the key `field`: updating an index `{"x": 1}` with the record
`{email: "b@x.com", age: 30}` produces
`{"x": 1, "email": "b@x.com", "age": 30}` — no entry is created under
the key `"b@x.com"` — and a second update then raises `AttributeError`
trying to `.append` on the stored string. -/
theorem update_field_keyed_not_value_keyed :
    DefinitionIndex.update usersDef [] "users" (Val.list (VList.ofList [recB]))
      = ([], Except.ok false) ∧
    DefinitionIndex.update usersDef stSeededIdx "users"
        (Val.list (VList.ofList
          [Val.dict (VPairs.ofList [(Val.str "phone", Val.int 5)])]))
      = (stSeededIdx,
         Except.error (PyError.exception "Unknown keys in cache_item, cannot cache")) ∧
    DefinitionIndex.update usersDef stSeededIdx "users"
        (Val.list (VList.ofList [recB]))
      = ([("_idx_users", Val.dict (VPairs.ofList
           [(Val.str "x", Val.int 1),
            (Val.str "email", Val.str "b@x.com"),
            (Val.str "age", Val.int 30)]))], Except.ok true) ∧
    dictGet (VPairs.ofList
        [(Val.str "x", Val.int 1),
         (Val.str "email", Val.str "b@x.com"),
         (Val.str "age", Val.int 30)]) (Val.str "b@x.com") = Option.none ∧
    (DefinitionIndex.update usersDef
        (DefinitionIndex.update usersDef stSeededIdx "users"
          (Val.list (VList.ofList [recB]))).1
        "users" (Val.list (VList.ofList [recA]))).2
      = Except.error (PyError.attributeError
          "\x27str\x27 object has no attribute \x27append\x27") :=
  ⟨rfl, rfl, rfl, rfl, rfl⟩

/-- C8: on a registered name with no stored data `get` returns `False`
(not-found, not an error) and `all` returns the empty dict; but on a
name with stored data `get` raises `AttributeError` — the blob is a
list and the dict comprehension calls `.keys()` on it — instead of
returning the decoded collection blob. -/
theorem get_absent_ok_stored_crashes :
    ormUsers.get [] "users" = Except.ok (Val.bool false) ∧
    ormUsers.all [] "users" = Except.ok (Val.dict VPairs.nil) ∧
    ormUsers.get [("users", Val.list (VList.ofList [recA]))] "users"
      = Except.error (PyError.attributeError
          "\x27list\x27 object has no attribute \x27keys\x27") :=
  ⟨rfl, rfl, rfl⟩

/-! ## Lemmas about sequences of pushes -/

theorem pushSeq_nil (o : CacheORM) (st : Store) (ck : String) :
    o.pushSeq st ck [] = (st, true) := rfl

theorem pushSeq_cons (o : CacheORM) (st : Store) (ck : String)
    (c : List (String × Val)) (cs : List (List (String × Val))) :
    o.pushSeq st ck (c :: cs) =
      match (o.push st ck c).2 with
      | Except.ok true => o.pushSeq (o.push st ck c).1 ck cs
      | _ => ((o.push st ck c).1, false) := rfl

theorem pushSeq_collection (o : CacheORM) (ck : String)
    (defn : CacheDefinition) (hfind : o.findDef ck = Option.some defn) :
    ∀ (calls : List (List (String × Val))) (st : Store) (cur : List Val),
    (storeGet st ck = Option.none ∧ cur = [] ∨
     storeGet st ck = Option.some (Val.list (VList.ofList cur))) →
    (o.pushSeq st ck calls).2 = true →
    (storeGet (o.pushSeq st ck calls).1 ck = Option.none ∧
       cur ++ calls.map (CacheORM.extractRecord defn) = [] ∨
     storeGet (o.pushSeq st ck calls).1 ck
       = Option.some (Val.list (VList.ofList
           (cur ++ calls.map (CacheORM.extractRecord defn)))))
  | [], st, cur, hcur, _ => by
    rw [pushSeq_nil]
    simpa using hcur
  | c :: cs, st, cur, hcur, hsucc => by
    rw [pushSeq_cons] at hsucc ⊢
    rcases hres : (o.push st ck c).2 with e | b
    · simp only [hres] at hsucc
      exact Bool.noConfusion hsucc
    · cases b with
      | false =>
        simp only [hres] at hsucc
        exact Bool.noConfusion hsucc
      | true =>
        simp only [hres] at hsucc ⊢
        have hcol := push_ok_collection o st ck c defn cur hfind hcur hres
        have hih := pushSeq_collection o ck defn hfind cs (o.push st ck c).1
          (cur ++ [CacheORM.extractRecord defn c]) (Or.inr hcol) hsucc
        simpa [List.append_assoc] using hih

theorem hasDatetime_ofList_false : ∀ (l : List Val),
    (∀ v, v ∈ l → Val.hasDatetime v = false) →
    VList.hasDatetime (VList.ofList l) = false
  | [], _ => rfl
  | x :: xs, h => by
    have hx : Val.hasDatetime x = false := h x (by simp)
    have hxs := hasDatetime_ofList_false xs (fun v hv => h v (by simp [hv]))
    simp [VList.ofList, VList.hasDatetime, hx, hxs]

/-! ## The claim theorems -/

/-- C5 counterexample: from a store with an absent `tags` collection
(and the seeded index blob that lets pushes return at all), the push of
a list value nesting a native `datetime` really returns `True` — the
write-time normalization only reaches a top-level `datetime` — yet
`all` then raises `ValueError` decoding the stored `repr` text instead
of returning the pushed record. -/
theorem pushSeq_success_then_all_decode_error :
    storeGet stSeededTags "tags" = Option.none ∧
    (ormTags.pushSeq stSeededTags "tags" [poisonCall]).2 = true ∧
    ormTags.all stPoisonedTags "tags"
      = Except.error (PyError.valueError "malformed node or string") :=
  ⟨rfl, rfl, rfl⟩

/-- C5 (amended: pushed records free of nested native datetimes): for a
registered schema name, after any finite sequence of successful `push`
calls starting from an absent collection, none of whose built records
retains a native `datetime` value (a `datetime` nested inside a
list/tuple/dict value escapes the write-time normalization and makes
the stored blob undecodable), `all` returns exactly the records built
from those calls, in call order (the empty dict when there were no
calls), and the record at each 0-based position of the returned list is
the record built by the push call with the same 0-based index. -/
theorem push_append_monotone (o : CacheORM) (st : Store) (ck : String)
    (calls : List (List (String × Val))) (defn : CacheDefinition)
    (hfind : o.findDef ck = Option.some defn)
    (habsent : storeGet st ck = Option.none)
    (hclean : ∀ c, c ∈ calls →
      Val.hasDatetime (CacheORM.extractRecord defn c) = false)
    (hsucc : (o.pushSeq st ck calls).2 = true) :
    o.all (o.pushSeq st ck calls).1 ck
      = Except.ok (if calls.isEmpty then Val.dict VPairs.nil
          else Val.list (VList.ofList (calls.map (CacheORM.extractRecord defn)))) ∧
    ∀ i, (calls.map (CacheORM.extractRecord defn)).get? i
        = (calls.get? i).map (CacheORM.extractRecord defn) := by
  have hcont := contains_of_findDef hfind
  have haux := pushSeq_collection o ck defn hfind calls st []
    (Or.inl ⟨habsent, rfl⟩) hsucc
  constructor
  · rcases haux with ⟨hget, hnil⟩ | hget
    · have hmap : calls.map (CacheORM.extractRecord defn) = [] := by
        simpa using hnil
      have hcalls : calls = [] := List.map_eq_nil_iff.mp hmap
      subst hcalls
      rw [CacheORM.all, if_pos hcont]
      simp only [hget]
      rfl
    · have hne : ¬ calls.isEmpty = true := by
        intro hc
        have hcalls : calls = [] := List.isEmpty_iff.mp hc
        subst hcalls
        rw [pushSeq_nil] at hget
        rw [habsent] at hget
        exact Option.noConfusion hget
      have hcl : VList.hasDatetime
          (VList.ofList (calls.map (CacheORM.extractRecord defn))) = false :=
        hasDatetime_ofList_false _ (fun v hv => by
          rcases List.mem_map.mp hv with ⟨c, hc, hvc⟩
          rw [← hvc]
          exact hclean c hc)
      have hdes : deserialize_dict
          (Val.list (VList.ofList (calls.map (CacheORM.extractRecord defn))))
          = Except.ok (Val.list (VList.ofList
              (calls.map (CacheORM.extractRecord defn)))) := by
        have hv : Val.hasDatetime (Val.list (VList.ofList
            (calls.map (CacheORM.extractRecord defn)))) = false := hcl
        simp [deserialize_dict, hv]
      rw [CacheORM.all, if_pos hcont]
      simp only [hget, List.nil_append, hdes, if_neg hne]
  · intro i
    exact List.get?_map (CacheORM.extractRecord defn) calls i

/-- C5 witness: two successful pushes on the `tags` schema from a store
with an absent collection; `all` returns the two built records in call
order. -/
theorem push_append_monotone_witness :
    ormTags.all (ormTags.pushSeq stSeededTags "tags" tagsCalls).1 "tags"
      = Except.ok (if tagsCalls.isEmpty then Val.dict VPairs.nil
          else Val.list (VList.ofList
            (tagsCalls.map (CacheORM.extractRecord tagsDef)))) ∧
    ∀ i, (tagsCalls.map (CacheORM.extractRecord tagsDef)).get? i
        = (tagsCalls.get? i).map (CacheORM.extractRecord tagsDef) :=
  push_append_monotone ormTags stSeededTags "tags" tagsCalls tagsDef rfl rfl
    (by decide) rfl

/-- C7 counterexample: two ways a type-mismatched push fails with a
different error than the type-mismatch (`TypeError`) one.  First, a
call that supplies a type-mismatched value for the declared field `age`
but also passes the undeclared key `bogus` before it fails with the
unknown-key exception: the per-key loop checks key membership first, in
keyword order.  Second, at a store whose collection blob retains a
nested native `datetime` — a state reached from `stSeededTags` by the
API itself — a type-mismatched call (`items=3` against the list-typed
field) fails with the `ValueError` from `_unpack`, which runs before
the validation loop.  Both failures leave the store unchanged. -/
theorem push_type_mismatch_not_always_type_error :
    (ormUsers.push [] "users"
        [("bogus", Val.int 1), ("age", Val.str "oops")]).2
      = Except.error (PyError.exception "Unknown key `bogus` passed") ∧
    (ormUsers.push [] "users"
        [("bogus", Val.int 1), ("age", Val.str "oops")]).1 = [] ∧
    (ormTags.push stPoisonedTags "tags" [("items", Val.int 3)]).2
      = Except.error (PyError.valueError "malformed node or string") ∧
    (ormTags.push stPoisonedTags "tags" [("items", Val.int 3)]).1
      = stPoisonedTags :=
  ⟨rfl, rfl, rfl, rfl⟩

/-- C7 (amended: every supplied field declared, collection blob
decodable): a `push` whose supplied keys are all declared fields, made
at a store whose collection blob for the name is absent or free of
nested native datetimes (so `_unpack`, which runs before validation,
does not raise first), and in which some supplied value fails the
`isinstance` check against the declared type, raises the type-mismatch
exception, and the store (hence the stored collection) is exactly what
it was before the call. -/
theorem push_type_mismatch_atomic (o : CacheORM) (st : Store) (ck : String)
    (kvals : List (String × Val)) (defn : CacheDefinition)
    (hfind : o.findDef ck = Option.some defn)
    (hblob : ∀ b, storeGet st ck = Option.some b → Val.hasDatetime b = false)
    (hdecl : ∀ p, p ∈ kvals → p.1 ∈ defn.repr.map Prod.fst)
    (hbad : ∃ p, p ∈ kvals ∧ ∃ ty, lookupTy defn.repr p.1 = Option.some ty ∧
      isInstance p.2 ty = false) :
    (o.push st ck kvals).1 = st ∧
    ∃ g, (o.push st ck kvals).2
      = Except.error (PyError.exception ("Type mismatch with key `" ++ g ++ "`")) := by
  have hcont := contains_of_findDef hfind
  rcases validateLoop_mismatch defn.repr kvals defn.dictNone hdecl hbad with ⟨g, hg⟩
  have hunp : ∃ cs0, o.unpack st ck = Except.ok cs0 := by
    rcases hst : storeGet st ck with _ | b
    · refine ⟨Val.bool false, ?_⟩
      rw [CacheORM.unpack, if_pos hcont, hst]
    · refine ⟨b, ?_⟩
      rw [CacheORM.unpack, if_pos hcont, hst]
      simp [deserialize_dict, hblob b hst]
  rcases hunp with ⟨cs0, hunp⟩
  constructor
  · rw [CacheORM.push, if_pos hcont, hfind]
    simp only [hunp, hg]
  · refine ⟨g, ?_⟩
    rw [CacheORM.push, if_pos hcont, hfind]
    simp only [hunp, hg]

/-- C7 witness: pushing a string into the integer-typed `age` field of
`users` raises the type-mismatch exception and leaves the empty store
unchanged. -/
theorem push_type_mismatch_atomic_witness :
    (ormUsers.push [] "users" [("age", Val.str "oops")]).1 = [] ∧
    ∃ g, (ormUsers.push [] "users" [("age", Val.str "oops")]).2
      = Except.error (PyError.exception ("Type mismatch with key `" ++ g ++ "`")) :=
  push_type_mismatch_atomic ormUsers [] "users" [("age", Val.str "oops")]
    usersDef rfl
    (fun b hb => by simp [storeGet] at hb)
    (fun p hp => by
      rcases List.mem_singleton.mp hp with rfl
      simp [usersDef])
    ⟨("age", Val.str "oops"), List.mem_singleton.mpr rfl, PrimTy.int, rfl, rfl⟩

/-- C9: whenever a `push` call succeeds and one of its supplied values
is a native `datetime` (necessarily for a timestamp-typed field, the
only declared type a `datetime` is an instance of), the record appended
to the stored collection holds the canonical
`"%Y-%m-%d %H:%M:%S"` string for that field, not a native temporal
value. -/
theorem push_datetime_normalized (o : CacheORM) (st : Store) (ck : String)
    (kvals : List (String × Val)) (f : String) (t : PyDateTime)
    (hnodup : (kvals.map Prod.fst).Nodup)
    (hmem : (f, Val.datetime t) ∈ kvals)
    (hsucc : (o.push st ck kvals).2 = Except.ok true) :
    ∃ (cur : VList) (app : VPairs),
      storeGet (o.push st ck kvals).1 ck
        = Option.some (Val.list (cur.snoc (Val.dict app))) ∧
      dictGet app (Val.str f) = Option.some (Val.str t.strftimeYmdHMS) := by
  rcases push_ok_split o st ck kvals hsucc with ⟨defn, app, cur, _, hval, hst⟩
  exact ⟨cur, app, hst,
    validateLoop_datetime defn.repr (defn.repr.map Prod.fst) kvals
      defn.dictNone app f t hnodup hmem hval⟩

/-- C9 witness: a successful push of a `datetime(2021, 3, 4, 5, 6, 7)`
value on the `events` schema stores the string "2021-03-04 05:06:07" in
the appended record. -/
theorem push_datetime_normalized_witness :
    ∃ (cur : VList) (app : VPairs),
      storeGet (ormEvents.push stSeededEvents "events"
          [("name", Val.str "launch"),
           ("at", Val.datetime ⟨2021, 3, 4, 5, 6, 7⟩)]).1 "events"
        = Option.some (Val.list (cur.snoc (Val.dict app))) ∧
      dictGet app (Val.str "at")
        = Option.some (Val.str (PyDateTime.strftimeYmdHMS ⟨2021, 3, 4, 5, 6, 7⟩)) :=
  push_datetime_normalized ormEvents stSeededEvents "events"
    [("name", Val.str "launch"), ("at", Val.datetime ⟨2021, 3, 4, 5, 6, 7⟩)]
    "at" ⟨2021, 3, 4, 5, 6, 7⟩ (by decide)
    (List.Mem.tail _ (List.Mem.head _)) rfl

/-- C10: whenever a `push` call succeeds, the appended record's key
sequence is exactly the schema's declared field sequence, and every
declared field that was not supplied in the call is stored with value
`None`. -/
theorem push_defaults_none (o : CacheORM) (st : Store) (ck : String)
    (kvals : List (String × Val)) (defn : CacheDefinition)
    (hfind : o.findDef ck = Option.some defn)
    (hsucc : (o.push st ck kvals).2 = Except.ok true) :
    ∃ (cur : VList) (app : VPairs),
      storeGet (o.push st ck kvals).1 ck
        = Option.some (Val.list (cur.snoc (Val.dict app))) ∧
      app.keysList = defn.repr.map (fun p => Val.str p.1) ∧
      (∀ fld, fld ∈ defn.repr.map Prod.fst → fld ∉ kvals.map Prod.fst →
        dictGet app (Val.str fld) = Option.some Val.none) := by
  rcases push_ok_split o st ck kvals hsucc with ⟨defn2, app, cur, hfind2, hval, hst⟩
  rw [hfind] at hfind2
  injection hfind2 with hd
  subst hd
  refine ⟨cur, app, hst, ?_, ?_⟩
  · have hinv : ∀ s, s ∈ defn.repr.map Prod.fst →
        dictHasKey defn.dictNone (Val.str s) = true := by
      intro s hs
      refine dictHasKey_of_mem_keysList _ s ?_
      rw [dictNone_keysList]
      rcases List.mem_map.mp hs with ⟨p, hp, hps⟩
      exact List.mem_map.mpr ⟨p, hp, by rw [hps]⟩
    rw [validateLoop_keysList defn.repr (defn.repr.map Prod.fst) kvals
      defn.dictNone app hinv hval]
    exact dictNone_keysList defn
  · intro fld hfld hnot
    rw [validateLoop_get_unset defn.repr (defn.repr.map Prod.fst) kvals
      defn.dictNone app fld hnot hval]
    exact dictGet_dictNone defn fld hfld

/-- C10 witness: a successful push on `users` supplying only `age`
appends a record whose keys are exactly `email, age` with `email`
stored as `None`. -/
theorem push_defaults_none_witness :
    ∃ (cur : VList) (app : VPairs),
      storeGet (ormUsers.push stSeededIdx "users" [("age", Val.int 30)]).1 "users"
        = Option.some (Val.list (cur.snoc (Val.dict app))) ∧
      app.keysList = usersDef.repr.map (fun p => Val.str p.1) ∧
      (∀ fld, fld ∈ usersDef.repr.map Prod.fst →
        fld ∉ [("age", Val.int 30)].map
          (Prod.fst (α := String) (β := Val)) →
        dictGet app (Val.str fld) = Option.some Val.none) :=
  push_defaults_none ormUsers stSeededIdx "users" [("age", Val.int 30)]
    usersDef rfl rfl

end CacheORMProof

